import Mathlib

/-
Verification of the VNID coordination map from pkg/network/node/vnids.go.

The Go maps are embedded as association lists (`alookup`, `aset`, `adel`),
the `sets.String` values as duplicate-free lists of strings, and each
method of `nodeVNIDMap` as a pure function on a `VMap` record.  Policy
callbacks (the side effects emitted towards the isolation policy) are
returned explicitly as a list of `PolicyCallback` values.
-/

deriving instance DecidableEq for Except

def alookup {κ β : Type} [DecidableEq κ] (m : List (κ × β)) (k : κ) : Option β :=
  match m with
  | [] => none
  | (k1, v) :: rest => if k1 = k then some v else alookup rest k

def aset {κ β : Type} [DecidableEq κ] (m : List (κ × β)) (k : κ) (v : β) : List (κ × β) :=
  match m with
  | [] => [(k, v)]
  | (k1, v1) :: rest => if k1 = k then (k, v) :: rest else (k1, v1) :: aset rest k v

def adel {κ β : Type} [DecidableEq κ] (m : List (κ × β)) (k : κ) : List (κ × β) :=
  match m with
  | [] => []
  | (k1, v1) :: rest => if k1 = k then adel rest k else (k1, v1) :: adel rest k

/-- Model of sets.String.Insert: add a member if it is not yet present. -/
def sinsert (s : List String) (n : String) : List String :=
  if n ∈ s then s else s ++ [n]

/-- Model of sets.String.Delete: remove a member. -/
def sdelete (s : List String) (n : String) : List String :=
  s.filter (fun x => decide (x ≠ n))

/-- State of nodeVNIDMap: the forward index ids, the multicast flags, and
the reverse index namespaces (vnid to set of namespace names). -/
structure VMap where
  ids : List (String × Nat)
  mcEnabled : List (String × Bool)
  namespaces : List (Nat × List String)
deriving DecidableEq

/-- Model of newNodeVNIDMap: all three indexes start empty. -/
def emptyVMap : VMap := ⟨[], [], []⟩

/-- Bucket update performed by addNamespaceToSet on the reverse index. -/
def addToBuckets (b : List (Nat × List String)) (name : String) (vnid : Nat) :
    List (Nat × List String) :=
  match alookup b vnid with
  | none => aset b vnid (sinsert [] name)
  | some s => aset b vnid (sinsert s name)

/-- Bucket update performed by removeNamespaceFromSet: delete the member and
prune the bucket when it becomes empty. -/
def removeFromBuckets (b : List (Nat × List String)) (name : String) (vnid : Nat) :
    List (Nat × List String) :=
  match alookup b vnid with
  | none => b
  | some s =>
    let s1 := sdelete s name
    if s1.length = 0 then adel b vnid else aset b vnid s1

def addNamespaceToSet (m : VMap) (name : String) (vnid : Nat) : VMap :=
  ⟨m.ids, m.mcEnabled, addToBuckets m.namespaces name vnid⟩

def removeNamespaceFromSet (m : VMap) (name : String) (vnid : Nat) : VMap :=
  ⟨m.ids, m.mcEnabled, removeFromBuckets m.namespaces name vnid⟩

/-- Model of GetNamespaces: the members of the reverse-index bucket, nil when
the vnid has no bucket. -/
def GetNamespaces (m : VMap) (id : Nat) : List String :=
  match alookup m.namespaces id with
  | some s => s
  | none => []

/-- Model of GetMulticastEnabled: false for a missing or empty bucket, else
the conjunction of the mcEnabled flags of all member namespaces (a missing
mcEnabled entry reads as false, as a Go map zero value does). -/
def GetMulticastEnabled (m : VMap) (id : Nat) : Bool :=
  match alookup m.namespaces id with
  | none => false
  | some s =>
    if s.length = 0 then false
    else s.all (fun ns => ((alookup m.mcEnabled ns).getD false))

def vnidNotFoundMsg (name : String) : String :=
  "failed to find netid for namespace: " ++ name ++ " in vnid map"

/-- Model of getVNID: forward-index lookup, with the not-found error. -/
def getVNID (m : VMap) (name : String) : Except String Nat :=
  match alookup m.ids name with
  | some id => Except.ok id
  | none => Except.error (vnidNotFoundMsg name)

/-- Model of setVNID: remove the namespace from its old reverse-index bucket
when it was bound, then write all three indexes. -/
def setVNID (m : VMap) (name : String) (id : Nat) (mc : Bool) : VMap :=
  let m1 := match alookup m.ids name with
            | some oldId => removeNamespaceFromSet m name oldId
            | none => m
  let m2 : VMap := ⟨aset m1.ids name id, aset m1.mcEnabled name mc, m1.namespaces⟩
  addNamespaceToSet m2 name id

/-- Model of unsetVNID: fails with the not-found error when the namespace has
no binding, otherwise removes it from all three indexes and returns the old
vnid together with the new state. -/
def unsetVNID (m : VMap) (name : String) : Except String (Nat × VMap) :=
  match alookup m.ids name with
  | none => Except.error (vnidNotFoundMsg name)
  | some id =>
    let m1 := removeNamespaceFromSet m name id
    Except.ok (id, ⟨adel m1.ids name, adel m1.mcEnabled name, m1.namespaces⟩)

/-- Isolation policy capability, reduced to the one query the map reads;
the lifecycle callbacks are modelled as emitted PolicyCallback values. -/
structure OsdnPolicy where
  allowDuplicateNetID : Bool
deriving DecidableEq

def multitenantPolicy : OsdnPolicy := ⟨false⟩

def networkPolicyPolicy : OsdnPolicy := ⟨true⟩

/-- Model of a NetNamespace object: object name, NetName, NetID, and the
annotation map. -/
structure NetNamespace where
  name : String
  netName : String
  netID : Nat
  annotationList : List (String × String)
deriving DecidableEq

def multicastEnabledKey : String := "netnamespace.network.openshift.io/multicast-enabled"

/-- Model of netnsIsMulticastEnabled: the annotation must be present and be
exactly the string true. -/
def netnsIsMulticastEnabled (netns : NetNamespace) : Bool :=
  match alookup netns.annotationList multicastEnabledKey with
  | some v => v = "true"
  | none => false

inductive EventType where
  | added
  | modified
  | deleted
deriving DecidableEq

/-- Callback invocations emitted toward the isolation policy. -/
inductive PolicyCallback where
  | addNetNamespace (netns : NetNamespace)
  | updateNetNamespace (netns : NetNamespace) (oldNetID : Nat)
  | deleteNetNamespace (netns : NetNamespace)
deriving DecidableEq

/-- Model of findDuplicateNetID: under a policy forbidding duplicates, the
first namespace other than the given one already in the bucket of netID. -/
def findDuplicateNetID (pol : OsdnPolicy) (m : VMap) (nsName : String) (netID : Nat) :
    Option String :=
  if pol.allowDuplicateNetID then none
  else (GetNamespaces m netID).find? (fun n => decide (n ≠ nsName))

/-- Model of handleAddOrUpdateNetNamespace: duplicate-ID guard, no-op
suppression, then setVNID and a policy callback chosen by the event type
(oldNetID is the Go zero value 0 when the namespace was unbound). -/
def handleAddOrUpdateNetNamespace (pol : OsdnPolicy) (m : VMap) (netns : NetNamespace)
    (eventType : EventType) : VMap × List PolicyCallback :=
  match findDuplicateNetID pol m netns.netName netns.netID with
  | some _ => (m, [])
  | none =>
    let oldMCEnabled := (alookup m.mcEnabled netns.netName).getD false
    let mc := netnsIsMulticastEnabled netns
    match getVNID m netns.netName with
    | Except.ok oldNetID =>
      if oldNetID = netns.netID ∧ oldMCEnabled = mc then (m, [])
      else
        let m1 := setVNID m netns.netName netns.netID mc
        if eventType = EventType.added then (m1, [PolicyCallback.addNetNamespace netns])
        else (m1, [PolicyCallback.updateNetNamespace netns oldNetID])
    | Except.error _ =>
      let m1 := setVNID m netns.netName netns.netID mc
      if eventType = EventType.added then (m1, [PolicyCallback.addNetNamespace netns])
      else (m1, [PolicyCallback.updateNetNamespace netns 0])

/-- Model of handleDeleteNetNamespace: unset first; on NotFound stop without
any callback, otherwise emit the delete callback with the new state. -/
def handleDeleteNetNamespace (m : VMap) (netns : NetNamespace) :
    VMap × List PolicyCallback :=
  match unsetVNID m netns.netName with
  | Except.error _ => (m, [])
  | Except.ok (_, m1) => (m1, [PolicyCallback.deleteNetNamespace netns])

/-- Model of populateVNIDs: on a successful list, fold setVNID over every
listed NetNamespace (using the object name, as the source does); a list
failure is returned as is. -/
def populateVNIDs (m : VMap) (listResult : Except String (List NetNamespace)) :
    Except String VMap :=
  match listResult with
  | Except.error e => Except.error e
  | Except.ok nets =>
    Except.ok (nets.foldl (fun acc net =>
      setVNID acc net.name net.netID (netnsIsMulticastEnabled net)) m)

/-- Model of Start: populate synchronously, then register the watch handlers;
the boolean records whether watchNetNamespaces ran. -/
def Start (m : VMap) (listResult : Except String (List NetNamespace)) :
    Except String VMap × Bool :=
  match populateVNIDs m listResult with
  | Except.error e => (Except.error e, false)
  | Except.ok m1 => (Except.ok m1, true)

/-- Modelled from the spec: the Backoff Retrier (utilwait.ExponentialBackoff,
whose source is not part of this repository) runs the condition for at most
steps attempts and returns the index and value of the first success.  The
lookup results per attempt are supplied as a function, since the map may be
mutated concurrently between attempts. -/
def firstOk (lookups : Nat → Except String Nat) (steps : Nat) (i : Nat) :
    Option (Nat × Nat) :=
  match steps with
  | 0 => none
  | Nat.succ k =>
    match lookups i with
    | Except.ok id => some (i, id)
    | Except.error _ => firstOk lookups k (i + 1)

/-- Modelled from the spec: the delays (in microseconds) slept between the
attempts: initial delay 400ms, multiplier 1.5 (exact on these values). -/
def backoffDelays (duration : Nat) (n : Nat) : List Nat :=
  match n with
  | 0 => []
  | Nat.succ k => duration :: backoffDelays (duration * 3 / 2) k

/-- Outcome of one WaitAndGetVNID call: final map state, result, emitted
policy callbacks, number of not-found counter increments, number of local
lookup attempts, and the backoff delays slept. -/
structure WaitOutcome where
  vmap : VMap
  result : Except String Nat
  callbacks : List PolicyCallback
  notFoundInc : Nat
  attempts : Nat
  delays : List Nat
deriving DecidableEq

def waitWrapErrMsg (name : String) (e : String) : String :=
  "failed to find netid for namespace: " ++ name ++ ", " ++ e

/-- Model of WaitAndGetVNID, generalized over the per-attempt local lookup
results: backoff-retry the local lookup (6 steps, 400ms initial delay,
factor 1.5); on first success return that vnid; on exhaustion increment the
not-found counter and do one authoritative point read, either wrapping its
error with the namespace name or feeding the result through the Add/Update
handler (event type Added) and returning the fresh NetID. -/
def WaitAndGetVNIDgen (pol : OsdnPolicy) (m : VMap) (lookups : Nat → Except String Nat)
    (apiGet : Except String NetNamespace) (name : String) : WaitOutcome :=
  match firstOk lookups 6 0 with
  | some (i, id) => ⟨m, Except.ok id, [], 0, i + 1, backoffDelays 400000 i⟩
  | none =>
    match apiGet with
    | Except.error e =>
      ⟨m, Except.error (waitWrapErrMsg name e), [], 1, 6, backoffDelays 400000 5⟩
    | Except.ok netns =>
      let r := handleAddOrUpdateNetNamespace pol m netns EventType.added
      ⟨r.1, Except.ok netns.netID, r.2, 1, 6, backoffDelays 400000 5⟩

/-- Model of WaitAndGetVNID in the sequential semantics, where the local map
does not change between the retry attempts. -/
def WaitAndGetVNID (pol : OsdnPolicy) (m : VMap) (apiGet : Except String NetNamespace)
    (name : String) : WaitOutcome :=
  WaitAndGetVNIDgen pol m (fun _ => getVNID m name) apiGet name

/-- States reachable from the empty map by sequences of setVNID and
unsetVNID (the only mutations the source performs). -/
inductive Reachable : VMap → Prop where
  | empty : Reachable emptyVMap
  | set {m : VMap} (name : String) (id : Nat) (mc : Bool) :
      Reachable m → Reachable (setVNID m name id mc)
  | unset {m : VMap} {name : String} {id : Nat} {m1 : VMap} :
      Reachable m → unsetVNID m name = Except.ok (id, m1) → Reachable m1

/-- Forward half of the index-symmetry invariant. -/
def InvA (m : VMap) : Prop :=
  ∀ n v, alookup m.ids n = some v → ∃ s, alookup m.namespaces v = some s ∧ n ∈ s

/-- Reverse half of the index-symmetry invariant, including bucket
non-emptiness. -/
def InvB (m : VMap) : Prop :=
  ∀ v s, alookup m.namespaces v = some s → s ≠ [] ∧ ∀ n ∈ s, alookup m.ids n = some v

/-- Decidable entry-wise form of the reverse-index consistency used as the
hypothesis of the deletion-ordering theorem. -/
abbrev IndexConsistent (m : VMap) : Prop :=
  ∀ q ∈ m.namespaces, ∀ n ∈ q.2, alookup m.ids n = some q.1

def nnA : NetNamespace := ⟨"nsA", "nsA", 5, []⟩

def nnB : NetNamespace := ⟨"nsB", "nsB", 5, []⟩

def nn1 : NetNamespace := ⟨"ns1", "ns1", 5, []⟩

def nnTeamA : NetNamespace := ⟨"team-a", "team-a", 42, []⟩

def nnSeven : NetNamespace := ⟨"ns1", "ns1", 7, []⟩

def vm1 : VMap := ⟨[("nsA", 5)], [("nsA", true)], [(5, ["nsA"])]⟩

def vmOther : VMap := ⟨[("other", 7)], [("other", false)], [(7, ["other"])]⟩

def vmAfterA : VMap :=
  (handleAddOrUpdateNetNamespace multitenantPolicy emptyVMap nnA EventType.added).1

def st1 : VMap := setVNID emptyVMap "a" 5 true

/-- Success test on an Except result (the err == nil check in the source). -/
def exceptIsOk {ε α : Type} (r : Except ε α) : Bool :=
  match r with
  | Except.ok _ => true
  | Except.error _ => false

theorem alookup_aset_self {κ β : Type} [DecidableEq κ] (m : List (κ × β)) (k : κ) (v : β) :
    alookup (aset m k v) k = some v := by
  induction m with
  | nil => simp [aset, alookup]
  | cons p rest ih =>
    obtain ⟨k1, v1⟩ := p
    by_cases h : k1 = k
    · simp [aset, h, alookup]
    · simp [aset, h, alookup, ih]

theorem alookup_aset_ne {κ β : Type} [DecidableEq κ] (m : List (κ × β)) (k k1 : κ) (v : β)
    (h : k1 ≠ k) : alookup (aset m k v) k1 = alookup m k1 := by
  have hk : ¬ k = k1 := fun hh => h hh.symm
  induction m with
  | nil => simp [aset, alookup, hk]
  | cons p rest ih =>
    obtain ⟨k2, v2⟩ := p
    by_cases h2 : k2 = k
    · subst h2
      simp [aset, alookup, hk]
    · simp [aset, h2, alookup, ih]

theorem alookup_adel_self {κ β : Type} [DecidableEq κ] (m : List (κ × β)) (k : κ) :
    alookup (adel m k) k = none := by
  induction m with
  | nil => simp [adel, alookup]
  | cons p rest ih =>
    obtain ⟨k1, v1⟩ := p
    by_cases h : k1 = k
    · simp [adel, h, ih]
    · simp [adel, h, alookup, ih]

theorem alookup_adel_ne {κ β : Type} [DecidableEq κ] (m : List (κ × β)) (k k1 : κ)
    (h : k1 ≠ k) : alookup (adel m k) k1 = alookup m k1 := by
  induction m with
  | nil => simp [adel]
  | cons p rest ih =>
    obtain ⟨k2, v2⟩ := p
    by_cases h2 : k2 = k
    · subst h2
      have hk : ¬ k2 = k1 := fun hh => h hh.symm
      simp [adel, alookup, hk, ih]
    · simp [adel, h2, alookup, ih]

theorem alookup_mem {κ β : Type} [DecidableEq κ] (m : List (κ × β)) (k : κ) (v : β)
    (h : alookup m k = some v) : (k, v) ∈ m := by
  induction m with
  | nil => simp [alookup] at h
  | cons p rest ih =>
    obtain ⟨k1, v1⟩ := p
    by_cases h1 : k1 = k
    · subst h1
      simp [alookup] at h
      simp [h]
    · simp [alookup, h1] at h
      exact List.mem_cons_of_mem _ (ih h)

theorem mem_sinsert (s : List String) (n x : String) :
    x ∈ sinsert s n ↔ x ∈ s ∨ x = n := by
  unfold sinsert
  by_cases h : n ∈ s
  · simp [h]
    intro hx
    subst hx
    exact h
  · simp [h]

theorem sinsert_ne_nil (s : List String) (n : String) : sinsert s n ≠ [] := by
  unfold sinsert
  by_cases h : n ∈ s
  · simp [h]
    intro hs
    subst hs
    simp at h
  · simp [h]

theorem mem_sdelete (s : List String) (n x : String) :
    x ∈ sdelete s n ↔ x ∈ s ∧ x ≠ n := by
  unfold sdelete
  simp [List.mem_filter]

theorem sdelete_eq_nil_forall (s : List String) (n : String)
    (h : (sdelete s n).length = 0) : ∀ x ∈ s, x = n := by
  intro x hx
  by_contra hne
  have : x ∈ sdelete s n := (mem_sdelete s n x).2 ⟨hx, hne⟩
  rw [List.length_eq_zero] at h
  rw [h] at this
  simp at this

theorem alookup_addToBuckets_ne (b : List (Nat × List String)) (name : String)
    (vnid v : Nat) (h : v ≠ vnid) :
    alookup (addToBuckets b name vnid) v = alookup b v := by
  unfold addToBuckets
  cases alookup b vnid with
  | none => exact alookup_aset_ne b vnid v _ h
  | some s => exact alookup_aset_ne b vnid v _ h

theorem alookup_addToBuckets_self (b : List (Nat × List String)) (name : String)
    (vnid : Nat) :
    alookup (addToBuckets b name vnid) vnid =
      some (sinsert ((alookup b vnid).getD []) name) := by
  unfold addToBuckets
  cases alookup b vnid with
  | none => simp [alookup_aset_self]
  | some s => simp [alookup_aset_self]

theorem alookup_removeFromBuckets_ne (b : List (Nat × List String)) (name : String)
    (vnid v : Nat) (h : v ≠ vnid) :
    alookup (removeFromBuckets b name vnid) v = alookup b v := by
  unfold removeFromBuckets
  cases alookup b vnid with
  | none => rfl
  | some s =>
    by_cases hl : (sdelete s name).length = 0
    · simp [hl, alookup_adel_ne b vnid v h]
    · simp [hl, alookup_aset_ne b vnid v _ h]

theorem alookup_removeFromBuckets_self (b : List (Nat × List String)) (name : String)
    (vnid : Nat) :
    alookup (removeFromBuckets b name vnid) vnid =
      match alookup b vnid with
      | none => none
      | some s => if (sdelete s name).length = 0 then none else some (sdelete s name) := by
  unfold removeFromBuckets
  cases h : alookup b vnid with
  | none => simp [h]
  | some s =>
    by_cases hl : (sdelete s name).length = 0
    · simp [hl, alookup_adel_self]
    · simp [hl, alookup_aset_self]

theorem setVNID_ids (m : VMap) (name : String) (id : Nat) (mc : Bool) :
    (setVNID m name id mc).ids = aset m.ids name id := by
  unfold setVNID addNamespaceToSet removeNamespaceFromSet
  cases alookup m.ids name <;> rfl

theorem setVNID_mc (m : VMap) (name : String) (id : Nat) (mc : Bool) :
    (setVNID m name id mc).mcEnabled = aset m.mcEnabled name mc := by
  unfold setVNID addNamespaceToSet removeNamespaceFromSet
  cases alookup m.ids name <;> rfl

theorem setVNID_ns (m : VMap) (name : String) (id : Nat) (mc : Bool) :
    (setVNID m name id mc).namespaces =
      addToBuckets
        (match alookup m.ids name with
         | some oldId => removeFromBuckets m.namespaces name oldId
         | none => m.namespaces) name id := by
  unfold setVNID addNamespaceToSet removeNamespaceFromSet
  cases alookup m.ids name <;> rfl

theorem removeFromBuckets_self_some (b : List (Nat × List String)) (name : String)
    (vnid : Nat) (s : List String)
    (h : alookup (removeFromBuckets b name vnid) vnid = some s) :
    ∃ s0, alookup b vnid = some s0 ∧ s = sdelete s0 name ∧ s ≠ [] := by
  rw [alookup_removeFromBuckets_self] at h
  cases h0 : alookup b vnid with
  | none => rw [h0] at h; simp at h
  | some s0 =>
    rw [h0] at h
    by_cases hl : (sdelete s0 name).length = 0
    · simp [hl] at h
    · simp only [hl, if_false] at h
      have hs := Option.some.inj h
      refine ⟨s0, rfl, hs.symm, ?_⟩
      rw [← hs]
      intro hnil
      rw [hnil] at hl
      simp at hl

theorem alookup_removeFromBuckets_mem (b : List (Nat × List String)) (name : String)
    (vnid v : Nat) (s : List String) (n : String)
    (hb : alookup b v = some s) (hn : n ∈ s) (hne : n ≠ name) :
    ∃ s1, alookup (removeFromBuckets b name vnid) v = some s1 ∧ n ∈ s1 := by
  by_cases hv : v = vnid
  · subst hv
    have hmem : n ∈ sdelete s name := (mem_sdelete s name n).2 ⟨hn, hne⟩
    have hnz : ¬ (sdelete s name).length = 0 := by
      intro h0
      rw [List.length_eq_zero] at h0
      rw [h0] at hmem
      simp at hmem
    refine ⟨sdelete s name, ?_, hmem⟩
    rw [alookup_removeFromBuckets_self, hb]
    simp [hnz]
  · exact ⟨s, by rw [alookup_removeFromBuckets_ne _ _ _ _ hv]; exact hb, hn⟩

theorem alookup_addToBuckets_mem (b : List (Nat × List String)) (name : String)
    (vnid v : Nat) (s : List String) (n : String)
    (hb : alookup b v = some s) (hn : n ∈ s) :
    ∃ s1, alookup (addToBuckets b name vnid) v = some s1 ∧ n ∈ s1 := by
  by_cases hv : v = vnid
  · subst hv
    refine ⟨sinsert ((alookup b v).getD []) name, alookup_addToBuckets_self _ _ _, ?_⟩
    rw [hb]
    exact (mem_sinsert _ _ _).2 (Or.inl hn)
  · exact ⟨s, by rw [alookup_addToBuckets_ne _ _ _ _ hv]; exact hb, hn⟩

theorem name_mem_addToBuckets (b : List (Nat × List String)) (name : String) (vnid : Nat) :
    ∃ s1, alookup (addToBuckets b name vnid) vnid = some s1 ∧ name ∈ s1 :=
  ⟨_, alookup_addToBuckets_self b name vnid, (mem_sinsert _ _ _).2 (Or.inr rfl)⟩

theorem inv_empty : InvA emptyVMap ∧ InvB emptyVMap := by
  constructor
  · intro n v h
    simp [emptyVMap, alookup] at h
  · intro v s h
    simp [emptyVMap, alookup] at h

theorem inv_set (m : VMap) (hA : InvA m) (hB : InvB m) (name : String) (id : Nat)
    (mc : Bool) : InvA (setVNID m name id mc) ∧ InvB (setVNID m name id mc) := by
  cases hold : alookup m.ids name with
  | none =>
    have hns : (setVNID m name id mc).namespaces = addToBuckets m.namespaces name id := by
      rw [setVNID_ns, hold]
    constructor
    · intro n v hnv
      rw [setVNID_ids] at hnv
      rw [hns]
      by_cases hn : n = name
      · subst hn
        rw [alookup_aset_self] at hnv
        have hv := Option.some.inj hnv
        subst hv
        exact name_mem_addToBuckets _ _ _
      · rw [alookup_aset_ne _ _ _ _ hn] at hnv
        obtain ⟨s, hs, hmem⟩ := hA n v hnv
        exact alookup_addToBuckets_mem _ name id _ _ _ hs hmem
    · intro v s hv
      rw [hns] at hv
      by_cases hvid : v = id
      · subst hvid
        rw [alookup_addToBuckets_self] at hv
        have hs := Option.some.inj hv
        subst hs
        refine ⟨sinsert_ne_nil _ _, ?_⟩
        intro n hn
        rw [setVNID_ids]
        rcases (mem_sinsert _ _ _).1 hn with hmem | hname
        · cases hb : alookup m.namespaces v with
          | none => rw [hb] at hmem; simp at hmem
          | some s0 =>
            rw [hb] at hmem
            simp only [Option.getD_some] at hmem
            have hids := (hB v s0 hb).2 n hmem
            have hne : n ≠ name := by
              intro he
              rw [he, hold] at hids
              simp at hids
            rw [alookup_aset_ne _ _ _ _ hne]
            exact hids
        · subst hname
          rw [alookup_aset_self]
      · rw [alookup_addToBuckets_ne _ _ _ _ hvid] at hv
        have hb := hB v s hv
        refine ⟨hb.1, ?_⟩
        intro n hn
        have hids := hb.2 n hn
        have hne : n ≠ name := by
          intro he
          rw [he, hold] at hids
          simp at hids
        rw [setVNID_ids, alookup_aset_ne _ _ _ _ hne]
        exact hids
  | some oldId =>
    have hns : (setVNID m name id mc).namespaces =
        addToBuckets (removeFromBuckets m.namespaces name oldId) name id := by
      rw [setVNID_ns, hold]
    constructor
    · intro n v hnv
      rw [setVNID_ids] at hnv
      rw [hns]
      by_cases hn : n = name
      · subst hn
        rw [alookup_aset_self] at hnv
        have hv := Option.some.inj hnv
        subst hv
        exact name_mem_addToBuckets _ _ _
      · rw [alookup_aset_ne _ _ _ _ hn] at hnv
        obtain ⟨s, hs, hmem⟩ := hA n v hnv
        obtain ⟨s1, hs1, hmem1⟩ := alookup_removeFromBuckets_mem _ name oldId _ _ _ hs hmem hn
        exact alookup_addToBuckets_mem _ name id _ _ _ hs1 hmem1
    · intro v s hv
      rw [hns] at hv
      by_cases hvid : v = id
      · subst hvid
        rw [alookup_addToBuckets_self] at hv
        have hs := Option.some.inj hv
        subst hs
        refine ⟨sinsert_ne_nil _ _, ?_⟩
        intro n hn
        rw [setVNID_ids]
        rcases (mem_sinsert _ _ _).1 hn with hmem | hname
        · cases hb1 : alookup (removeFromBuckets m.namespaces name oldId) v with
          | none => rw [hb1] at hmem; simp at hmem
          | some s1 =>
            rw [hb1] at hmem
            simp only [Option.getD_some] at hmem
            by_cases hvold : v = oldId
            · obtain ⟨s0, hb0, hseq, hsne⟩ :=
                removeFromBuckets_self_some _ name oldId s1 (hvold ▸ hb1)
              have hmem0 := (mem_sdelete s0 name n).1 (hseq ▸ hmem)
              have hids := (hB oldId s0 hb0).2 n hmem0.1
              rw [alookup_aset_ne _ _ _ _ hmem0.2, hids, hvold]
            · rw [alookup_removeFromBuckets_ne _ _ _ _ hvold] at hb1
              have hids := (hB v s1 hb1).2 n hmem
              have hne : n ≠ name := by
                intro he
                rw [he, hold] at hids
                exact hvold (Option.some.inj hids).symm
              rw [alookup_aset_ne _ _ _ _ hne]
              exact hids
        · subst hname
          rw [alookup_aset_self]
      · rw [alookup_addToBuckets_ne _ _ _ _ hvid] at hv
        by_cases hvold : v = oldId
        · subst hvold
          obtain ⟨s0, hb0, hseq, hsne⟩ := removeFromBuckets_self_some _ name v s hv
          refine ⟨hsne, ?_⟩
          intro n hn
          have hmem0 := (mem_sdelete s0 name n).1 (hseq ▸ hn)
          have hids := (hB v s0 hb0).2 n hmem0.1
          rw [setVNID_ids, alookup_aset_ne _ _ _ _ hmem0.2]
          exact hids
        · rw [alookup_removeFromBuckets_ne _ _ _ _ hvold] at hv
          have hb := hB v s hv
          refine ⟨hb.1, ?_⟩
          intro n hn
          have hids := hb.2 n hn
          have hne : n ≠ name := by
            intro he
            rw [he, hold] at hids
            exact hvold (Option.some.inj hids).symm
          rw [setVNID_ids, alookup_aset_ne _ _ _ _ hne]
          exact hids

theorem unsetVNID_ok_elim (m : VMap) (name : String) (id : Nat) (m1 : VMap)
    (h : unsetVNID m name = Except.ok (id, m1)) :
    alookup m.ids name = some id ∧
    m1 = ⟨adel m.ids name, adel m.mcEnabled name,
          removeFromBuckets m.namespaces name id⟩ := by
  unfold unsetVNID at h
  cases hold : alookup m.ids name with
  | none =>
    rw [hold] at h
    simp at h
  | some id0 =>
    rw [hold] at h
    simp [removeNamespaceFromSet] at h
    obtain ⟨h1, h2⟩ := h
    subst h1
    exact ⟨rfl, h2.symm⟩

theorem inv_unset (m : VMap) (hA : InvA m) (hB : InvB m) (name : String) (id : Nat)
    (m1 : VMap) (h : unsetVNID m name = Except.ok (id, m1)) : InvA m1 ∧ InvB m1 := by
  obtain ⟨hold, hm1⟩ := unsetVNID_ok_elim m name id m1 h
  subst hm1
  constructor
  · intro n v hnv
    simp only at hnv ⊢
    have hne : n ≠ name := by
      intro he
      rw [he, alookup_adel_self] at hnv
      simp at hnv
    rw [alookup_adel_ne _ _ _ hne] at hnv
    obtain ⟨s, hs, hmem⟩ := hA n v hnv
    exact alookup_removeFromBuckets_mem _ name id _ _ _ hs hmem hne
  · intro v s hv
    simp only at hv ⊢
    by_cases hvid : v = id
    · subst hvid
      obtain ⟨s0, hb0, hseq, hsne⟩ := removeFromBuckets_self_some _ name v s hv
      refine ⟨hsne, ?_⟩
      intro n hn
      have hmem0 := (mem_sdelete s0 name n).1 (hseq ▸ hn)
      have hids := (hB v s0 hb0).2 n hmem0.1
      rw [alookup_adel_ne _ _ _ hmem0.2]
      exact hids
    · rw [alookup_removeFromBuckets_ne _ _ _ _ hvid] at hv
      have hb := hB v s hv
      refine ⟨hb.1, ?_⟩
      intro n hn
      have hids := hb.2 n hn
      have hne : n ≠ name := by
        intro he
        rw [he, hold] at hids
        exact hvid (Option.some.inj hids).symm
      rw [alookup_adel_ne _ _ _ hne]
      exact hids

theorem reachable_invariant {m : VMap} (h : Reachable m) : InvA m ∧ InvB m := by
  induction h with
  | empty => exact inv_empty
  | set name id mc _ ih => exact inv_set _ ih.1 ih.2 name id mc
  | unset _ hu ih => exact inv_unset _ ih.1 ih.2 _ _ _ hu

/-- C1: in every state reachable from the empty map by sequences of setVNID and
unsetVNID, every namespace n with ids[n] = v is a member of namespaces[v]; every
member n of namespaces[v] satisfies ids[n] = v; and no vnid maps to an empty
set. -/
theorem vnid_index_symmetry (m : VMap) (h : Reachable m) :
    (∀ n v, alookup m.ids n = some v → ∃ s, alookup m.namespaces v = some s ∧ n ∈ s)
    ∧ (∀ v s, alookup m.namespaces v = some s →
        s ≠ [] ∧ ∀ n ∈ s, alookup m.ids n = some v) :=
  reachable_invariant h

theorem vnid_index_symmetry_witness :
    (∀ n v, alookup st1.ids n = some v → ∃ s, alookup st1.namespaces v = some s ∧ n ∈ s)
    ∧ (∀ v s, alookup st1.namespaces v = some s →
        s ≠ [] ∧ ∀ n ∈ s, alookup st1.ids n = some v) :=
  vnid_index_symmetry st1 (Reachable.set "a" 5 true Reachable.empty)

/-- C2: in every reachable state, GetMulticastEnabled v is true exactly when the
set of namespaces bound to v is non-empty and every one of them has its
multicast flag recorded as true; in particular it is false when no namespace is
bound to v. -/
theorem getMulticastEnabled_group (m : VMap) (v : Nat) (h : Reachable m) :
    GetMulticastEnabled m v = true ↔
      (GetNamespaces m v ≠ [] ∧
       ∀ ns ∈ GetNamespaces m v, alookup m.mcEnabled ns = some true) := by
  clear h
  unfold GetMulticastEnabled GetNamespaces
  cases hb : alookup m.namespaces v with
  | none => simp
  | some s =>
    by_cases hl : s.length = 0
    · rw [List.length_eq_zero] at hl
      subst hl
      simp
    · have hne : s ≠ [] := by
        intro h0
        rw [h0] at hl
        simp at hl
      simp only [hl, if_false, hne, ne_eq, not_false_iff, true_and]
      rw [List.all_eq_true]
      constructor
      · intro hall ns hns
        have hx := hall ns hns
        cases hmc : alookup m.mcEnabled ns with
        | none => rw [hmc] at hx; simp at hx
        | some b =>
          rw [hmc] at hx
          simp only [Option.getD_some] at hx
          rw [hx]
      · intro hall ns hns
        rw [hall ns hns]
        rfl

theorem getMulticastEnabled_group_witness :
    GetMulticastEnabled st1 5 = true ↔
      (GetNamespaces st1 5 ≠ [] ∧
       ∀ ns ∈ GetNamespaces st1 5, alookup st1.mcEnabled ns = some true) :=
  getMulticastEnabled_group st1 5 (Reachable.set "a" 5 true Reachable.empty)

/-- C3 counterexample: an Updated event for a namespace with no previous binding
makes the handler emit UpdateNetNamespace (with previous vnid 0), not
AddNetNamespace, so the callback choice follows the delivered event type and not
whether the namespace was previously bound. -/
theorem handle_update_event_on_new_namespace :
    (handleAddOrUpdateNetNamespace multitenantPolicy emptyVMap nn1 EventType.modified).2
        = [PolicyCallback.updateNetNamespace nn1 0]
    ∧ (handleAddOrUpdateNetNamespace multitenantPolicy emptyVMap nn1 EventType.modified).2
        ≠ [PolicyCallback.addNetNamespace nn1] := by
  decide

/-- C3 amended: for every Add or Update event that passes the duplicate-ID guard
and is not a no-op, the handler calls AddNetNamespace when the delivered event
type is Added and otherwise calls UpdateNetNamespace with the previously
recorded vnid (0 when the namespace had no previous binding), regardless of
whether the namespace was previously bound. -/
theorem handle_callback_matches_event_type (pol : OsdnPolicy) (m : VMap)
    (netns : NetNamespace) (et : EventType)
    (hdup : findDuplicateNetID pol m netns.netName netns.netID = none)
    (hnop : ¬ (alookup m.ids netns.netName = some netns.netID ∧
               (alookup m.mcEnabled netns.netName).getD false
                 = netnsIsMulticastEnabled netns)) :
    (handleAddOrUpdateNetNamespace pol m netns et).2 =
      if et = EventType.added then [PolicyCallback.addNetNamespace netns]
      else [PolicyCallback.updateNetNamespace netns
              ((alookup m.ids netns.netName).getD 0)] := by
  unfold handleAddOrUpdateNetNamespace
  rw [hdup]
  cases hold : alookup m.ids netns.netName with
  | some oldId =>
    simp only [getVNID, hold]
    have hcond : ¬ (oldId = netns.netID ∧
        (alookup m.mcEnabled netns.netName).getD false = netnsIsMulticastEnabled netns) := by
      intro hc
      exact hnop ⟨by rw [hold, hc.1], hc.2⟩
    rw [if_neg hcond]
    cases et <;> simp
  | none =>
    simp only [getVNID, hold]
    cases et <;> simp

theorem handle_callback_matches_event_type_witness :
    findDuplicateNetID multitenantPolicy emptyVMap nn1.netName nn1.netID = none
    ∧ ¬ (alookup emptyVMap.ids nn1.netName = some nn1.netID ∧
         (alookup emptyVMap.mcEnabled nn1.netName).getD false = netnsIsMulticastEnabled nn1)
    ∧ (handleAddOrUpdateNetNamespace multitenantPolicy emptyVMap nn1 EventType.added).2
        = [PolicyCallback.addNetNamespace nn1] := by
  refine ⟨by decide, by decide, ?_⟩
  have h := handle_callback_matches_event_type multitenantPolicy emptyVMap nn1
    EventType.added (by decide) (by decide)
  simpa using h

/-- C4: when the policy forbids duplicate VNIDs and a different namespace is
already bound to the event vnid, the Add/Update handler leaves the whole state
unchanged and emits no policy callback. -/
theorem duplicate_netid_first_writer_wins (pol : OsdnPolicy) (m : VMap)
    (netns : NetNamespace) (et : EventType)
    (hpol : pol.allowDuplicateNetID = false)
    (hdup : ∃ n ∈ GetNamespaces m netns.netID, n ≠ netns.netName) :
    handleAddOrUpdateNetNamespace pol m netns et = (m, []) := by
  obtain ⟨n, hn, hne⟩ := hdup
  unfold handleAddOrUpdateNetNamespace
  cases hf : findDuplicateNetID pol m netns.netName netns.netID with
  | some x => rfl
  | none =>
    exfalso
    unfold findDuplicateNetID at hf
    rw [hpol] at hf
    simp only [Bool.false_eq_true, if_false] at hf
    rw [List.find?_eq_none] at hf
    exact hf n hn (by simp [hne])

theorem duplicate_netid_first_writer_wins_witness :
    multitenantPolicy.allowDuplicateNetID = false
    ∧ (∃ n ∈ GetNamespaces vmAfterA nnB.netID, n ≠ nnB.netName)
    ∧ handleAddOrUpdateNetNamespace multitenantPolicy vmAfterA nnB EventType.added
        = (vmAfterA, [])
    ∧ GetNamespaces vmAfterA 5 = ["nsA"] :=
  ⟨by decide, by decide,
   duplicate_netid_first_writer_wins multitenantPolicy vmAfterA nnB EventType.added
     (by decide) (by decide), by decide⟩

/-- C8: from the empty local map, when the authoritative source holds the
binding (team-a, 42), WaitAndGetVNID returns 42 without error and afterwards
GetNamespaces 42 contains team-a (the point-read result is fed back through the
Add/Update reconciliation path). -/
theorem wait_propagation_lag_recovery :
    (WaitAndGetVNID multitenantPolicy emptyVMap (Except.ok nnTeamA) "team-a").result
        = Except.ok 42
    ∧ "team-a" ∈ GetNamespaces
        (WaitAndGetVNID multitenantPolicy emptyVMap (Except.ok nnTeamA) "team-a").vmap 42 := by
  decide

/-- C10: a state in which WaitAndGetVNID succeeds with a vnid while leaving no
local binding for the queried namespace: the local retries fail, the point read
returns vnid 7, the policy forbids duplicates and namespace other already holds
7, so the feedback event is dropped, the call still returns 7 with no callback,
and getVNID for the queried namespace still fails afterwards. -/
theorem wait_success_without_local_binding :
    (WaitAndGetVNID multitenantPolicy vmOther (Except.ok nnSeven) "ns1").result
        = Except.ok 7
    ∧ (WaitAndGetVNID multitenantPolicy vmOther (Except.ok nnSeven) "ns1").callbacks = []
    ∧ (WaitAndGetVNID multitenantPolicy vmOther (Except.ok nnSeven) "ns1").vmap = vmOther
    ∧ getVNID (WaitAndGetVNID multitenantPolicy vmOther (Except.ok nnSeven) "ns1").vmap "ns1"
        = Except.error (vnidNotFoundMsg "ns1") := by
  decide

/-- C6: for every Delete event, the handler emits DeleteNetNamespace only when
unsetVNID succeeded, and then it does so with the state from which the
namespace has already been removed from all three indexes; when unsetVNID fails
with NotFound no callback is emitted and the state is untouched. -/
theorem delete_ordering (m : VMap) (netns : NetNamespace) (hinv : IndexConsistent m) :
    (∀ e, unsetVNID m netns.netName = Except.error e →
        handleDeleteNetNamespace m netns = (m, []))
    ∧ (∀ id m1, unsetVNID m netns.netName = Except.ok (id, m1) →
        handleDeleteNetNamespace m netns = (m1, [PolicyCallback.deleteNetNamespace netns])
        ∧ alookup m1.ids netns.netName = none
        ∧ alookup m1.mcEnabled netns.netName = none
        ∧ ∀ v, netns.netName ∉ GetNamespaces m1 v) := by
  constructor
  · intro e he
    unfold handleDeleteNetNamespace
    rw [he]
  · intro id m1 hok
    obtain ⟨hold, hm1⟩ := unsetVNID_ok_elim m netns.netName id m1 hok
    refine ⟨?_, ?_, ?_, ?_⟩
    · unfold handleDeleteNetNamespace
      rw [hok]
    · rw [hm1]
      exact alookup_adel_self _ _
    · rw [hm1]
      exact alookup_adel_self _ _
    · intro v hvmem
      rw [hm1] at hvmem
      unfold GetNamespaces at hvmem
      cases hb : alookup (removeFromBuckets m.namespaces netns.netName id) v with
      | none =>
        rw [hb] at hvmem
        simp at hvmem
      | some s =>
        rw [hb] at hvmem
        by_cases hvid : v = id
        · subst hvid
          obtain ⟨s0, hb0, hseq, hsne⟩ := removeFromBuckets_self_some _ _ _ _ hb
          exact ((mem_sdelete s0 netns.netName netns.netName).1 (hseq ▸ hvmem)).2 rfl
        · rw [alookup_removeFromBuckets_ne _ _ _ _ hvid] at hb
          have hq := alookup_mem _ _ _ hb
          have hids := hinv (v, s) hq netns.netName hvmem
          rw [hold] at hids
          exact hvid (Option.some.inj hids).symm

theorem delete_ordering_witness :
    IndexConsistent vm1
    ∧ handleDeleteNetNamespace vm1 nnA = (emptyVMap, [PolicyCallback.deleteNetNamespace nnA])
    ∧ alookup emptyVMap.ids "nsA" = none
    ∧ alookup emptyVMap.mcEnabled "nsA" = none
    ∧ ∀ v, "nsA" ∉ GetNamespaces emptyVMap v := by
  refine ⟨by decide, ?_⟩
  exact (delete_ordering vm1 nnA (by decide)).2 5 emptyVMap (by decide)

theorem GetNamespaces_eq_getD (m : VMap) (v : Nat) :
    GetNamespaces m v = (alookup m.namespaces v).getD [] := by
  unfold GetNamespaces
  cases alookup m.namespaces v <;> simp

theorem mem_removeFromBuckets_subset (b : List (Nat × List String)) (n : String)
    (w v : Nat) (x : String)
    (hx : x ∈ (alookup (removeFromBuckets b n w) v).getD []) :
    x ∈ (alookup b v).getD [] := by
  by_cases hv : v = w
  · subst hv
    cases hb : alookup (removeFromBuckets b n v) v with
    | none =>
      rw [hb] at hx
      simp at hx
    | some s =>
      rw [hb] at hx
      simp only [Option.getD_some] at hx
      obtain ⟨s0, hb0, hseq, hsne⟩ := removeFromBuckets_self_some _ _ _ _ hb
      rw [hb0]
      simp only [Option.getD_some]
      exact ((mem_sdelete s0 n x).1 (hseq ▸ hx)).1
  · rw [alookup_removeFromBuckets_ne _ _ _ _ hv] at hx
    exact hx

theorem mem_setVNID_bucket (m : VMap) (name : String) (id : Nat) (mc : Bool) (x : String)
    (hx : x ∈ GetNamespaces (setVNID m name id mc) id) :
    x = name ∨ x ∈ GetNamespaces m id := by
  rw [GetNamespaces_eq_getD, setVNID_ns, alookup_addToBuckets_self] at hx
  simp only [Option.getD_some] at hx
  rcases (mem_sinsert _ _ _).1 hx with hmem | hname
  · right
    rw [GetNamespaces_eq_getD]
    cases hold : alookup m.ids name with
    | none =>
      simp only [hold] at hmem
      exact hmem
    | some oldId =>
      simp only [hold] at hmem
      exact mem_removeFromBuckets_subset _ name oldId id x hmem
  · exact Or.inl hname

theorem handle_second_noop (pol : OsdnPolicy) (m : VMap) (netns : NetNamespace)
    (et : EventType)
    (hdup : findDuplicateNetID pol m netns.netName netns.netID = none) :
    handleAddOrUpdateNetNamespace pol
        (setVNID m netns.netName netns.netID (netnsIsMulticastEnabled netns)) netns et
      = (setVNID m netns.netName netns.netID (netnsIsMulticastEnabled netns), []) := by
  have hids1 : alookup (setVNID m netns.netName netns.netID
      (netnsIsMulticastEnabled netns)).ids netns.netName = some netns.netID := by
    rw [setVNID_ids, alookup_aset_self]
  have hmc1 : alookup (setVNID m netns.netName netns.netID
      (netnsIsMulticastEnabled netns)).mcEnabled netns.netName
      = some (netnsIsMulticastEnabled netns) := by
    rw [setVNID_mc, alookup_aset_self]
  have hdup1 : findDuplicateNetID pol
      (setVNID m netns.netName netns.netID (netnsIsMulticastEnabled netns))
      netns.netName netns.netID = none := by
    unfold findDuplicateNetID
    cases hpol : pol.allowDuplicateNetID with
    | true => simp
    | false =>
      simp only [Bool.false_eq_true, if_false]
      rw [List.find?_eq_none]
      intro x hx
      rcases mem_setVNID_bucket m netns.netName netns.netID _ x hx with hxn | hxm
      · simp [hxn]
      · unfold findDuplicateNetID at hdup
        rw [hpol] at hdup
        simp only [Bool.false_eq_true, if_false] at hdup
        rw [List.find?_eq_none] at hdup
        have hxe := hdup x hxm
        simpa using hxe
  unfold handleAddOrUpdateNetNamespace
  rw [hdup1]
  simp [getVNID, hids1, hmc1, Option.getD_some]

/-- C5: applying the same Add/Update event twice in a row yields the same state
as applying it once, and the second application performs no write and emits no
policy callback. -/
theorem handle_add_or_update_idempotent (pol : OsdnPolicy) (m : VMap)
    (netns : NetNamespace) (et : EventType) :
    handleAddOrUpdateNetNamespace pol
        (handleAddOrUpdateNetNamespace pol m netns et).1 netns et
      = ((handleAddOrUpdateNetNamespace pol m netns et).1, []) := by
  cases hdup : findDuplicateNetID pol m netns.netName netns.netID with
  | some x =>
    have h1 : handleAddOrUpdateNetNamespace pol m netns et = (m, []) := by
      unfold handleAddOrUpdateNetNamespace
      rw [hdup]
    rw [h1]
    exact h1
  | none =>
    cases hold : alookup m.ids netns.netName with
    | some oldId =>
      by_cases hnop : oldId = netns.netID ∧
          (alookup m.mcEnabled netns.netName).getD false = netnsIsMulticastEnabled netns
      · have h1 : handleAddOrUpdateNetNamespace pol m netns et = (m, []) := by
          unfold handleAddOrUpdateNetNamespace
          rw [hdup]
          simp only [getVNID, hold]
          rw [if_pos hnop]
        rw [h1]
        exact h1
      · have h1 : (handleAddOrUpdateNetNamespace pol m netns et).1
            = setVNID m netns.netName netns.netID (netnsIsMulticastEnabled netns) := by
          unfold handleAddOrUpdateNetNamespace
          rw [hdup]
          simp only [getVNID, hold]
          rw [if_neg hnop]
          cases et <;> simp
        rw [h1]
        exact handle_second_noop pol m netns et hdup
    | none =>
      have h1 : (handleAddOrUpdateNetNamespace pol m netns et).1
          = setVNID m netns.netName netns.netID (netnsIsMulticastEnabled netns) := by
        unfold handleAddOrUpdateNetNamespace
        rw [hdup]
        simp only [getVNID, hold]
        cases et <;> simp
      rw [h1]
      exact handle_second_noop pol m netns et hdup

theorem getVNID_setVNID_self (m : VMap) (name : String) (id : Nat) (mc : Bool) :
    getVNID (setVNID m name id mc) name = Except.ok id := by
  unfold getVNID
  rw [setVNID_ids, alookup_aset_self]

theorem getVNID_setVNID_other (m : VMap) (name other : String) (id : Nat) (mc : Bool)
    (h : name ≠ other) : getVNID (setVNID m other id mc) name = getVNID m name := by
  unfold getVNID
  rw [setVNID_ids, alookup_aset_ne _ _ _ _ h]

theorem mem_GetNamespaces_setVNID_self (m : VMap) (name : String) (id : Nat) (mc : Bool) :
    name ∈ GetNamespaces (setVNID m name id mc) id := by
  rw [GetNamespaces_eq_getD, setVNID_ns, alookup_addToBuckets_self]
  simp only [Option.getD_some]
  exact (mem_sinsert _ _ _).2 (Or.inr rfl)

theorem mem_removeFromBuckets_of_ne (b : List (Nat × List String)) (n : String)
    (w v : Nat) (x : String) (hne : x ≠ n)
    (hx : x ∈ (alookup b v).getD []) :
    x ∈ (alookup (removeFromBuckets b n w) v).getD [] := by
  by_cases hv : v = w
  · subst hv
    cases hb : alookup b v with
    | none =>
      rw [hb] at hx
      simp at hx
    | some s =>
      rw [hb] at hx
      simp only [Option.getD_some] at hx
      have hmem : x ∈ sdelete s n := (mem_sdelete s n x).2 ⟨hx, hne⟩
      have hnz : ¬ (sdelete s n).length = 0 := by
        intro h0
        rw [List.length_eq_zero] at h0
        rw [h0] at hmem
        simp at hmem
      rw [alookup_removeFromBuckets_self, hb]
      simp only [hnz, if_false, Option.getD_some]
      exact hmem
  · rw [alookup_removeFromBuckets_ne _ _ _ _ hv]
    exact hx

theorem mem_addToBuckets_of_mem (b : List (Nat × List String)) (n : String)
    (w v : Nat) (x : String) (hx : x ∈ (alookup b v).getD []) :
    x ∈ (alookup (addToBuckets b n w) v).getD [] := by
  by_cases hv : v = w
  · subst hv
    rw [alookup_addToBuckets_self]
    simp only [Option.getD_some]
    exact (mem_sinsert _ _ _).2 (Or.inl hx)
  · rw [alookup_addToBuckets_ne _ _ _ _ hv]
    exact hx

theorem mem_GetNamespaces_setVNID_other (m : VMap) (other : String) (id1 : Nat)
    (mc1 : Bool) (name : String) (v : Nat) (hne : name ≠ other)
    (h : name ∈ GetNamespaces m v) :
    name ∈ GetNamespaces (setVNID m other id1 mc1) v := by
  rw [GetNamespaces_eq_getD] at h
  rw [GetNamespaces_eq_getD, setVNID_ns]
  apply mem_addToBuckets_of_mem
  cases hold : alookup m.ids other with
  | none =>
    simp only [hold]
    exact h
  | some oldId =>
    simp only [hold]
    exact mem_removeFromBuckets_of_ne _ _ _ _ _ hne h

theorem populateVNIDs_preserves (nets : List NetNamespace) (m : VMap) (name : String)
    (v : Nat) (hnot : ∀ net ∈ nets, net.name ≠ name)
    (h1 : getVNID m name = Except.ok v) (h2 : name ∈ GetNamespaces m v) :
    getVNID (nets.foldl (fun acc net =>
        setVNID acc net.name net.netID (netnsIsMulticastEnabled net)) m) name
      = Except.ok v
    ∧ name ∈ GetNamespaces (nets.foldl (fun acc net =>
        setVNID acc net.name net.netID (netnsIsMulticastEnabled net)) m) v := by
  induction nets generalizing m with
  | nil => exact ⟨h1, h2⟩
  | cons x rest ih =>
    simp only [List.foldl_cons]
    have hxname : x.name ≠ name := hnot x (by simp)
    have hname_ne : name ≠ x.name := fun he => hxname he.symm
    apply ih
    · intro net hnet
      exact hnot net (by simp [hnet])
    · rw [getVNID_setVNID_other _ _ _ _ _ hname_ne]
      exact h1
    · exact mem_GetNamespaces_setVNID_other _ _ _ _ _ _ hname_ne h2

theorem populateVNIDs_complete : ∀ (nets : List NetNamespace) (m : VMap),
    (nets.map NetNamespace.name).Nodup →
    ∀ net ∈ nets,
      getVNID (nets.foldl (fun acc net =>
          setVNID acc net.name net.netID (netnsIsMulticastEnabled net)) m) net.name
        = Except.ok net.netID
      ∧ net.name ∈ GetNamespaces (nets.foldl (fun acc net =>
          setVNID acc net.name net.netID (netnsIsMulticastEnabled net)) m) net.netID := by
  intro nets
  induction nets with
  | nil =>
    intro m _ net h
    simp at h
  | cons x rest ih =>
    intro m hnodup net hmem
    rw [List.map_cons, List.nodup_cons] at hnodup
    obtain ⟨hxnot, hrest⟩ := hnodup
    simp only [List.foldl_cons]
    rcases List.mem_cons.1 hmem with hx | hr
    · subst hx
      apply populateVNIDs_preserves rest _ net.name net.netID
      · intro net2 hnet2 he
        exact hxnot (by rw [← he]; exact List.mem_map_of_mem _ hnet2)
      · exact getVNID_setVNID_self m net.name net.netID _
      · exact mem_GetNamespaces_setVNID_self m net.name net.netID _
    · exact ih _ hrest net hr

/-- C9: when the initial full list succeeds, Start applies every listed binding
through setVNID before registering the watch handlers, so with pairwise
distinct names each listed namespace is afterwards retrievable through getVNID
and GetNamespaces; when the list fails, Start returns that error and registers
no handlers. -/
theorem start_bootstrap_complete (nets : List NetNamespace) (e : String)
    (hnodup : (nets.map NetNamespace.name).Nodup) :
    (∃ m1, Start emptyVMap (Except.ok nets) = (Except.ok m1, true)
       ∧ ∀ net ∈ nets, getVNID m1 net.name = Except.ok net.netID
           ∧ net.name ∈ GetNamespaces m1 net.netID)
    ∧ Start emptyVMap (Except.error e) = (Except.error e, false) := by
  constructor
  · refine ⟨_, rfl, ?_⟩
    exact populateVNIDs_complete nets emptyVMap hnodup
  · rfl

theorem start_bootstrap_complete_witness :
    (List.map NetNamespace.name [nnA, nnSeven]).Nodup
    ∧ ((∃ m1, Start emptyVMap (Except.ok [nnA, nnSeven]) = (Except.ok m1, true)
         ∧ ∀ net ∈ [nnA, nnSeven], getVNID m1 net.name = Except.ok net.netID
             ∧ net.name ∈ GetNamespaces m1 net.netID)
       ∧ Start emptyVMap (Except.error "listfail") = (Except.error "listfail", false)) :=
  ⟨by decide, start_bootstrap_complete [nnA, nnSeven] "listfail" (by decide)⟩

theorem firstOk_bounds (lookups : Nat → Except String Nat) :
    ∀ (steps start i id), firstOk lookups steps start = some (i, id) →
      start ≤ i ∧ i < start + steps := by
  intro steps
  induction steps with
  | zero =>
    intro start i id h
    simp [firstOk] at h
  | succ k ih =>
    intro start i id h
    unfold firstOk at h
    cases hl : lookups start with
    | ok v =>
      rw [hl] at h
      simp at h
      obtain ⟨h1, h2⟩ := h
      subst h1
      exact ⟨le_refl _, by omega⟩
    | error e =>
      rw [hl] at h
      obtain ⟨h1, h2⟩ := ih (start + 1) i id h
      exact ⟨by omega, by omega⟩

theorem firstOk_of_first_success (lookups : Nat → Except String Nat) :
    ∀ (steps start i id), start ≤ i → i < start + steps →
      (∀ j, start ≤ j → j < i → exceptIsOk (lookups j) = false) →
      lookups i = Except.ok id →
      firstOk lookups steps start = some (i, id) := by
  intro steps
  induction steps with
  | zero =>
    intro start i id h1 h2 _ _
    omega
  | succ k ih =>
    intro start i id h1 h2 hprev hok
    unfold firstOk
    cases hl : lookups start with
    | ok v =>
      have his : i = start := by
        by_contra hne
        have hlt : start < i := by omega
        have hx := hprev start (le_refl _) hlt
        rw [hl] at hx
        simp [exceptIsOk] at hx
      subst his
      rw [hl] at hok
      injection hok with hv
      rw [hv]
    | error e =>
      have hne : i ≠ start := by
        intro he
        rw [he, hl] at hok
        exact Except.noConfusion hok
      refine ih (start + 1) i id (by omega) (by omega) ?_ hok
      intro j hj1 hj2
      exact hprev j (by omega) hj2

theorem firstOk_none_of_all_fail (lookups : Nat → Except String Nat) :
    ∀ (steps start),
      (∀ j, start ≤ j → j < start + steps → exceptIsOk (lookups j) = false) →
      firstOk lookups steps start = none := by
  intro steps
  induction steps with
  | zero =>
    intro start _
    rfl
  | succ k ih =>
    intro start hall
    unfold firstOk
    cases hl : lookups start with
    | ok v =>
      have hx := hall start (le_refl _) (by omega)
      rw [hl] at hx
      simp [exceptIsOk] at hx
    | error e =>
      exact ih (start + 1) (fun j h1 h2 => hall j (by omega) (by omega))

/-- C7: the retrying lookup performs at most 6 local attempts; the slept delays
follow the exponential schedule starting at 400ms with multiplier 1.5; a first
successful attempt i returns that vnid with no error, i + 1 attempts and no
counter increment; and when all 6 attempts fail and the authoritative point
read also fails, it increments the not-found counter once and returns an error
wrapping the namespace name together with the underlying cause. -/
theorem wait_backoff_schedule (pol : OsdnPolicy) (m : VMap)
    (lookups : Nat → Except String Nat) (apiGet : Except String NetNamespace)
    (name : String) :
    (WaitAndGetVNIDgen pol m lookups apiGet name).attempts ≤ 6
    ∧ (∀ i id, i < 6 → (∀ j, j < i → exceptIsOk (lookups j) = false) →
        lookups i = Except.ok id →
        (WaitAndGetVNIDgen pol m lookups apiGet name).result = Except.ok id
        ∧ (WaitAndGetVNIDgen pol m lookups apiGet name).attempts = i + 1
        ∧ (WaitAndGetVNIDgen pol m lookups apiGet name).notFoundInc = 0)
    ∧ (∀ e, (∀ j, j < 6 → exceptIsOk (lookups j) = false) →
        apiGet = Except.error e →
        (WaitAndGetVNIDgen pol m lookups apiGet name).result
            = Except.error (waitWrapErrMsg name e)
        ∧ (WaitAndGetVNIDgen pol m lookups apiGet name).notFoundInc = 1)
    ∧ (WaitAndGetVNIDgen pol m lookups apiGet name).delays
        = backoffDelays 400000 ((WaitAndGetVNIDgen pol m lookups apiGet name).attempts - 1)
    ∧ backoffDelays 400000 6 = [400000, 600000, 900000, 1350000, 2025000, 3037500] := by
  refine ⟨?_, ?_, ?_, ?_, by rfl⟩
  · unfold WaitAndGetVNIDgen
    cases hf : firstOk lookups 6 0 with
    | some p =>
      obtain ⟨i, id⟩ := p
      have hb := firstOk_bounds lookups 6 0 i id hf
      dsimp only
      omega
    | none =>
      cases apiGet <;> simp
  · intro i id hi hprev hok
    have hf := firstOk_of_first_success lookups 6 0 i id (Nat.zero_le _) (by omega)
        (fun j _ hj => hprev j hj) hok
    unfold WaitAndGetVNIDgen
    rw [hf]
    exact ⟨rfl, rfl, rfl⟩
  · intro e hall hapi
    have hf := firstOk_none_of_all_fail lookups 6 0 (fun j _ hj => hall j (by omega))
    unfold WaitAndGetVNIDgen
    rw [hf, hapi]
    exact ⟨rfl, rfl⟩
  · unfold WaitAndGetVNIDgen
    cases hf : firstOk lookups 6 0 with
    | some p =>
      obtain ⟨i, id⟩ := p
      simp
    | none =>
      cases apiGet <;> simp

theorem wait_backoff_schedule_witness :
    (WaitAndGetVNIDgen multitenantPolicy vm1 (fun _ => getVNID vm1 "nsA")
        (Except.error "x") "nsA").result = Except.ok 5
    ∧ (WaitAndGetVNIDgen multitenantPolicy vm1 (fun _ => getVNID vm1 "nsA")
        (Except.error "x") "nsA").attempts = 1
    ∧ (WaitAndGetVNIDgen multitenantPolicy emptyVMap (fun _ => getVNID emptyVMap "z")
        (Except.error "boom") "z").result = Except.error (waitWrapErrMsg "z" "boom")
    ∧ (WaitAndGetVNIDgen multitenantPolicy emptyVMap (fun _ => getVNID emptyVMap "z")
        (Except.error "boom") "z").notFoundInc = 1 := by
  have h1 := (wait_backoff_schedule multitenantPolicy vm1 (fun _ => getVNID vm1 "nsA")
      (Except.error "x") "nsA").2.1 0 5 (by decide)
      (fun j hj => absurd hj (Nat.not_lt_zero j)) (by decide)
  have h2 := (wait_backoff_schedule multitenantPolicy emptyVMap
      (fun _ => getVNID emptyVMap "z") (Except.error "boom") "z").2.2.1 "boom"
      (fun j _ => by decide) rfl
  exact ⟨h1.1, h1.2.1, h2.1, h2.2⟩
